import Mathlib

/-!
# GhostFS — verification of the deterministic generator and write pipeline

Shallow embedding of the core of the GhostFS repository (Go): the
per-table batched write queue (`code/db/db.go`, the write-queue file),
the deterministic child generator (`DeterministicGenerator`), the bulk
seeder (`seed/seed.go`), the table-configuration validator
(`TableManager.ValidateConfig`) and the seed / UUID derivations
(SHA-256 based).

Machine integers are modelled as `Nat` / `Int` with explicit reductions
mod `2^w` where Go's fixed-width arithmetic matters.  Go's `math/rand`
source is modelled as an oracle: a function from the seed and the draw
index to the raw 63-bit value produced; the derived `Intn` / `Float64`
views are defined on top of it.  SHA-256 is implemented concretely.
-/

namespace GhostFS

/-! ## Bytes, SHA-256, UTF-8 and UUID formatting

`sha256Bytes` is a direct implementation of FIPS 180-4 over byte lists
(each byte a `Nat < 256`), used by `generateDeterministicSeed` and
`generateDeterministicUUID` exactly as Go's `crypto/sha256` is. -/

def w32 : Nat := 4294967296

def rotr32 (n x : Nat) : Nat := ((x >>> n) ||| (x <<< (32 - n))) % w32

def shaCh (x y z : Nat) : Nat := (x &&& y) ^^^ ((x ^^^ 4294967295) &&& z)

def shaMaj (x y z : Nat) : Nat := (x &&& y) ^^^ (x &&& z) ^^^ (y &&& z)

def bigSigma0 (x : Nat) : Nat := rotr32 2 x ^^^ rotr32 13 x ^^^ rotr32 22 x

def bigSigma1 (x : Nat) : Nat := rotr32 6 x ^^^ rotr32 11 x ^^^ rotr32 25 x

def smallSigma0 (x : Nat) : Nat := rotr32 7 x ^^^ rotr32 18 x ^^^ (x >>> 3)

def smallSigma1 (x : Nat) : Nat := rotr32 17 x ^^^ rotr32 19 x ^^^ (x >>> 10)

def sha256K : List Nat :=
  [1116352408, 1899447441, 3049323471, 3921009573, 961987163, 1508970993,
   2453635748, 2870763221, 3624381080, 310598401, 607225278, 1426881987,
   1925078388, 2162078206, 2614888103, 3248222580, 3835390401, 4022224774,
   264347078, 604807628, 770255983, 1249150122, 1555081692, 1996064986,
   2554220882, 2821834349, 2952996808, 3210313671, 3336571891, 3584528711,
   113926993, 338241895, 666307205, 773529912, 1294757372, 1396182291,
   1695183700, 1986661051, 2177026350, 2456956037, 2730485921, 2820302411,
   3259730800, 3345764771, 3516065817, 3600352804, 4094571909, 275423344,
   430227734, 506948616, 659060556, 883997877, 958139571, 1322822218,
   1537002063, 1747873779, 1955562222, 2024104815, 2227730452, 2361852424,
   2428436474, 2756734187, 3204031479, 3329325298]

def sha256H0 : List Nat :=
  [1779033703, 3144134277, 1013904242, 2773480762,
   1359893119, 2600822924, 528734635, 1541459225]

/-- Four big-endian bytes into one 32-bit word. -/
def wordBE (a b c d : Nat) : Nat := a * 16777216 + b * 65536 + c * 256 + d

def toWordsBE : List Nat → List Nat
  | a :: b :: c :: d :: rest => wordBE a b c d :: toWordsBE rest
  | _ => []

/-- Extend the 16 message words of a block to the 64-entry schedule. -/
def extendW (w : Array Nat) : Array Nat :=
  (List.range 48).foldl (fun w i =>
    let t := i + 16
    let v := (smallSigma1 (w.getD (t - 2) 0) + w.getD (t - 7) 0 +
              smallSigma0 (w.getD (t - 15) 0) + w.getD (t - 16) 0) % w32
    w.push v) w

/-- One compression round on the eight working variables. -/
def sha256Round (st : List Nat) (k w : Nat) : List Nat :=
  match st with
  | [a, b, c, d, e, f, g, h] =>
    let t1 := (h + bigSigma1 e + shaCh e f g + k + w) % w32
    let t2 := (bigSigma0 a + shaMaj a b c) % w32
    [(t1 + t2) % w32, a, b, c, (d + t1) % w32, e, f, g]
  | other => other

/-- Compress one 64-byte block into the running hash state. -/
def compressBlock (h : List Nat) (block : List Nat) : List Nat :=
  let ws := extendW (toWordsBE block).toArray
  let st := (List.zip sha256K ws.toList).foldl (fun st kw => sha256Round st kw.1 kw.2) h
  List.zipWith (fun x y => (x + y) % w32) h st

def chunksGo : Nat → List Nat → List (List Nat)
  | 0, _ => []
  | _, [] => []
  | fuel + 1, l => l.take 64 :: chunksGo fuel (l.drop 64)

def chunks64 (l : List Nat) : List (List Nat) := chunksGo l.length l

/-- Eight big-endian bytes of a (bit-)length value. -/
def be64 (n : Nat) : List Nat :=
  [(n >>> 56) % 256, (n >>> 48) % 256, (n >>> 40) % 256, (n >>> 32) % 256,
   (n >>> 24) % 256, (n >>> 16) % 256, (n >>> 8) % 256, n % 256]

def be32 (n : Nat) : List Nat :=
  [(n >>> 24) % 256, (n >>> 16) % 256, (n >>> 8) % 256, n % 256]

/-- FIPS 180-4 padding: `0x80`, zeros to 56 mod 64, then the 64-bit
big-endian bit length. -/
def sha256Pad (msg : List Nat) : List Nat :=
  msg ++ 0x80 :: List.replicate ((119 - msg.length % 64) % 64) 0 ++ be64 (msg.length * 8)

/-- SHA-256 digest (32 bytes) of a byte list. -/
def sha256Bytes (msg : List Nat) : List Nat :=
  ((chunks64 (sha256Pad msg)).foldl compressBlock sha256H0).foldr (fun w acc => be32 w ++ acc) []

/-- UTF-8 encoding of a single code point, as Go's `[]byte(string)` does. -/
def utf8Char (n : Nat) : List Nat :=
  if n < 0x80 then [n]
  else if n < 0x800 then [0xC0 ||| (n >>> 6), 0x80 ||| (n &&& 0x3F)]
  else if n < 0x10000 then
    [0xE0 ||| (n >>> 12), 0x80 ||| ((n >>> 6) &&& 0x3F), 0x80 ||| (n &&& 0x3F)]
  else
    [0xF0 ||| (n >>> 18), 0x80 ||| ((n >>> 12) &&& 0x3F), 0x80 ||| ((n >>> 6) &&& 0x3F),
     0x80 ||| (n &&& 0x3F)]

/-- UTF-8 bytes of a string. -/
def utf8Bytes (s : String) : List Nat :=
  s.data.foldr (fun c acc => utf8Char c.toNat ++ acc) []

/-- The value of a little-endian byte list. -/
def leVal : List Nat → Nat
  | [] => 0
  | b :: rest => b + 256 * leVal rest

/-- Eight little-endian bytes of an unsigned 64-bit value. -/
def leBytes8 (u : Nat) : List Nat :=
  [u % 256, (u >>> 8) % 256, (u >>> 16) % 256, (u >>> 24) % 256,
   (u >>> 32) % 256, (u >>> 40) % 256, (u >>> 48) % 256, (u >>> 56) % 256]

/-- The eight bytes Go's `binary.Write(h, binary.LittleEndian, x)` emits for
an `int64`: little-endian two's complement. -/
def int64LeBytes (n : Int) : List Nat := leBytes8 (Int.toNat (Int.emod n 18446744073709551616))

/-- Reinterpret an unsigned 64-bit value as a signed `int64`
(`int64(u)` in Go). -/
def int64OfU64 (u : Nat) : Int :=
  if u < 9223372036854775808 then (u : Int) else (u : Int) - 18446744073709551616

/-- FIPS 180-4 test vector for the SHA-256 embedding. -/
example : sha256Bytes (utf8Bytes "abc") =
    [0xba, 0x78, 0x16, 0xbf, 0x8f, 0x01, 0xcf, 0xea, 0x41, 0x41, 0x40, 0xde, 0x5d, 0xae, 0x22,
     0x23, 0xb0, 0x03, 0x61, 0xa3, 0x96, 0x17, 0x7a, 0x9c, 0xb4, 0x10, 0xff, 0x61, 0xf2, 0x00,
     0x15, 0xad] := rfl

/-! ## Seed and UUID derivation

Embeddings of `generateDeterministicSeed` (two textually identical Go
copies: one in the tables package next to `DeterministicGenerator`, one
in `code/db/seed/init_db.go`), of `generateDeterministicUUID`, and of
the two `buildPath` helpers (the generator's and the bulk seeder's). -/

/-- `generateDeterministicSeed` from the `DeterministicGenerator` file:
SHA-256 over the little-endian `int64` bytes of the master seed followed
by the folder id's UTF-8 bytes; the first 8 digest bytes, read
little-endian, reinterpreted as `int64`. -/
def generateDeterministicSeed (masterSeed : Int) (folderID : String) : Int :=
  int64OfU64 (leVal ((sha256Bytes (int64LeBytes masterSeed ++ utf8Bytes folderID)).take 8))

/-- `generateDeterministicSeed` from `code/db/seed/init_db.go` — a
verbatim second copy of the same derivation. -/
def initdbGenerateDeterministicSeed (masterSeed : Int) (folderID : String) : Int :=
  int64OfU64 (leVal ((sha256Bytes (int64LeBytes masterSeed ++ utf8Bytes folderID)).take 8))

/-- Lowercase hex digit. -/
def hexDigit (n : Nat) : Char :=
  if n < 10 then Char.ofNat (48 + n) else Char.ofNat (87 + n)

/-- Two lowercase hex characters of a byte. -/
def byteHex (b : Nat) : String := String.mk [hexDigit (b >>> 4), hexDigit (b &&& 15)]

def bytesHex (bs : List Nat) : String := bs.foldl (fun acc b => acc ++ byteHex b) ""

/-- `uuid.FromBytes(bs).String()` for 16 raw bytes: 8-4-4-4-12 lowercase
hex groups; `FromBytes` copies the bytes verbatim (no version bits). -/
def uuidStringOfBytes (bs : List Nat) : String :=
  bytesHex (bs.take 4) ++ "-" ++ bytesHex ((bs.drop 4).take 2) ++ "-" ++
    bytesHex ((bs.drop 6).take 2) ++ "-" ++ bytesHex ((bs.drop 8).take 2) ++ "-" ++
    bytesHex (bs.drop 10)

/-- `generateDeterministicUUID`: UUID string of the first 16 bytes of
SHA-256 over the little-endian seed bytes followed by the name. -/
def generateDeterministicUUID (seed : Int) (name : String) : String :=
  uuidStringOfBytes ((sha256Bytes (int64LeBytes seed ++ utf8Bytes name)).take 16)

/-- `buildPath` from the `DeterministicGenerator` file: special-cases the
root path `"/"`. -/
def buildPath (parentPath name : String) : String :=
  if parentPath = "/" then "/" ++ name else parentPath ++ "/" ++ name

/-- `buildPath` from the bulk seeder `seed/seed.go`: unconditional
concatenation, no root special case. -/
def seedBuildPath (parentPath name : String) : String := parentPath ++ "/" ++ name

/-- Modelled from the spec (§4.4, Path building): `join("/", name) = "/" + name`;
`join(p, name) = p + "/" + name` for `p ≠ "/"`. -/
def specJoin (p name : String) : String :=
  if p = "/" then "/" ++ name else p ++ "/" ++ name

/-- Modelled from the spec (§4.3/§4.4): the child seed is
`int64(first_8_bytes_LE(SHA-256(LE_bytes(master_seed) || utf8(folder.id))))`. -/
def specChildSeed (masterSeed : Int) (folderId : String) : Int :=
  int64OfU64 (leVal (List.take 8 (sha256Bytes (int64LeBytes masterSeed ++ utf8Bytes folderId))))

/-- Go cross-check: `SHA-256(LE(42) || "R")`, first 8 bytes LE as int64. -/
example : generateDeterministicSeed 42 "R" = 3828628090006418299 := rfl

/-- Go cross-check: deterministic UUID of `(42, "folder_0")`. -/
example : generateDeterministicUUID 42 "folder_0" = "f4c356e5-ae86-3be7-dab7-b35ff7e24298" := rfl

/-- C9: for every master seed and folder id, the derived child seed equals
the spec's `int64(first_8_bytes_LE(SHA-256(LE_bytes(master_seed) || utf8(folder.id))))`,
and the lazy generator's and the init path's derivation functions both
compute exactly this value. -/
theorem C9_child_seed_derivation (masterSeed : Int) (folderID : String) :
    generateDeterministicSeed masterSeed folderID = specChildSeed masterSeed folderID ∧
    initdbGenerateDeterministicSeed masterSeed folderID = specChildSeed masterSeed folderID :=
  ⟨rfl, rfl⟩

/-- C8: the generator's `buildPath` satisfies the spec's join equation, but
the bulk seeder's `buildPath` does not: at parent path `"/"` and name
`"folder_0"` it produces a double slash. The claim that both paths satisfy
the join equation fails on the seeder; evaluating both at the failing
input shows the divergence. -/
theorem C8_buildPath_seeder_double_slash :
    buildPath "/" "folder_0" = "/folder_0" ∧
    specJoin "/" "folder_0" = "/folder_0" ∧
    seedBuildPath "/" "folder_0" = "//folder_0" ∧
    seedBuildPath "/" "folder_0" ≠ specJoin "/" "folder_0" := by
  refine ⟨rfl, rfl, rfl, ?_⟩
  decide

/-! ## The write pipeline

Embedding of the per-table `WriteQueue` (node mode, the only mode the
node tables use) and of the `DB`-level helpers in `code/db/db.go`:
`QueueWrite`, `flushWriteQueue`, `Query`, `QueryRow`, `ForceFlushTable`.

A queued operation's SQL text and parameters are abstracted into an
opaque numeric payload `opId`; executing a batch appends its operations
to the `committed` list (the database's contents, in commit order).
Go's wall-clock test `time.Since(lastFlushed) >= flushTimer` is
abstracted into a boolean input `elapsed`.  The model is sequential:
each Go call runs to completion before the next (the mutex windows have
no observable interleaving then). -/

structure WriteOp where
  path : String
  opId : Nat
  opType : String
deriving DecidableEq

structure Batch where
  table : String
  opType : String
  ops : List WriteOp
deriving DecidableEq

structure WriteQueue where
  tableName : String
  /-- Pending `(path, op)` pairs in arrival order. Go keys a map by path;
  every count and snapshot below ranges over all paths' operations, so the
  flattened arrival-ordered list carries the same information. -/
  queue : List (String × WriteOp)
  readyToWrite : Bool
  isWriting : Bool
  batchSize : Nat
deriving DecidableEq

/-- `WriteQueue.Add`: append the operation; when the total pending
operation count reaches `batchSize`, mark the queue ready-to-write. -/
def WriteQueue.add (wq : WriteQueue) (path : String) (op : WriteOp) : WriteQueue :=
  let queue := wq.queue ++ [(path, op)]
  { wq with
      queue := queue
      readyToWrite := wq.readyToWrite || decide (wq.batchSize ≤ queue.length) }

/-- `WriteQueue.ShouldFlush`: refuse while a flush is in flight; otherwise
flush if forced, ready-to-write, or the interval elapsed with a nonempty
queue — and in that case enter the writing state. -/
def WriteQueue.shouldFlush (wq : WriteQueue) (force elapsed : Bool) : Bool × WriteQueue :=
  if wq.isWriting then (false, wq)
  else
    let sf := force || wq.readyToWrite || (elapsed && !wq.queue.isEmpty)
    if sf then (true, { wq with isWriting := true, readyToWrite := false }) else (false, wq)

/-- `WriteQueue.flushNodeQueue`: snapshot all pending operations grouped
into one batch per `opType`, and clear the queue. Go builds the groups by
map iteration; the batch list order is canonicalized here (first-seen
type order), which no claim depends on. -/
def WriteQueue.flushNodeQueue (wq : WriteQueue) : List Batch × WriteQueue :=
  if wq.queue.isEmpty then ([], wq)
  else
    let ops := wq.queue.map (·.2)
    let batches := ((ops.map (·.opType)).dedup).map
      (fun t => Batch.mk wq.tableName t (ops.filter (·.opType = t)))
    (batches, { wq with queue := [] })

/-- `WriteQueue.Flush`: decide via `ShouldFlush`, snapshot-and-clear via
`flushNodeQueue`, reset the writing gate, and return the batches — the
caller is responsible for executing them. -/
def WriteQueue.flush (wq : WriteQueue) (force elapsed : Bool) : List Batch × WriteQueue :=
  let swq := wq.shouldFlush force elapsed
  if swq.1 then
    let bwq := swq.2.flushNodeQueue
    (bwq.1, { bwq.2 with isWriting := false })
  else ([], swq.2)

/-- One table's slice of `DB`: its write queue and the operations already
committed to the database, in commit order. -/
structure PipeDB where
  wq : WriteQueue
  committed : List WriteOp
deriving DecidableEq

/-- `DB.QueueWrite`: `Add` with empty path and op type `"insert"`, then
`wq.Flush()` — whose returned batches the Go code ignores, so they are
dropped here too, exactly as in the source. -/
def dbQueueWrite (db : PipeDB) (elapsed : Bool) (opId : Nat) : PipeDB :=
  let wq1 := db.wq.add "" ⟨"", opId, "insert"⟩
  { db with wq := (wq1.flush false elapsed).2 }

/-- `DB.flushWriteQueue`: flush and execute the returned batches in one
transaction (appending their operations to `committed`). -/
def dbFlushWriteQueue (db : PipeDB) (force elapsed : Bool) : PipeDB :=
  let bwq := db.wq.flush force elapsed
  { wq := bwq.2, committed := db.committed ++ (bwq.1.map (·.ops)).flatten }

/-- `DB.Query`: force-flush this table's queue, then run the read; the
read observes the committed operations. -/
def dbQuery (db : PipeDB) (elapsed : Bool) : List WriteOp × PipeDB :=
  let db1 := dbFlushWriteQueue db true elapsed
  (db1.committed, db1)

/-- `DB.QueryRow`: runs the read directly — no flush of any queue. -/
def dbQueryRow (db : PipeDB) : List WriteOp × PipeDB := (db.committed, db)

def dbForceFlushLoop : Nat → Bool → PipeDB → PipeDB
  | 0, _, db => db
  | fuel + 1, elapsed, db =>
    let bwq := db.wq.flush true elapsed
    if bwq.1.isEmpty then { db with wq := bwq.2 }
    else dbForceFlushLoop fuel elapsed
      { wq := bwq.2, committed := db.committed ++ ((bwq.1.map (·.ops)).flatten) }

/-- `DB.ForceFlushTable`: keep flushing and executing until a flush
returns no batches. -/
def dbForceFlushTable (db : PipeDB) (elapsed : Bool) : PipeDB :=
  dbForceFlushLoop (db.wq.queue.length + 2) elapsed db

/-- Every pending operation lands in the batches `flushNodeQueue` returns. -/
lemma flushNodeQueue_mem (wq : WriteQueue) (op : WriteOp)
    (hop : op ∈ wq.queue.map (·.2)) :
    op ∈ (((wq.flushNodeQueue).1).map (·.ops)).flatten := by
  obtain ⟨tn, q, rtw, iw, bs⟩ := wq
  simp only at hop
  have hne : q.isEmpty = false := by
    cases q with
    | nil => simp at hop
    | cons x xs => rfl
  unfold WriteQueue.flushNodeQueue
  simp only [hne, Bool.false_eq_true, if_false]
  apply List.mem_flatten.mpr
  refine ⟨(q.map (·.2)).filter (·.opType = op.opType), ?_, ?_⟩
  · apply List.mem_map.mpr
    refine ⟨Batch.mk tn op.opType ((q.map (·.2)).filter (·.opType = op.opType)), ?_, rfl⟩
    apply List.mem_map.mpr
    refine ⟨op.opType, ?_, rfl⟩
    exact List.mem_dedup.mpr (List.mem_map.mpr ⟨op, hop, rfl⟩)
  · exact List.mem_filter.mpr ⟨hop, by simp⟩

/-- `flushNodeQueue` always leaves the queue empty. -/
lemma flushNodeQueue_clears (wq : WriteQueue) : ((wq.flushNodeQueue).2).queue = [] := by
  obtain ⟨tn, q, rtw, iw, bs⟩ := wq
  unfold WriteQueue.flushNodeQueue
  cases q with
  | nil => rfl
  | cons x xs => rfl

/-- C1: `QueueWrite` is not loss-free. With `batch_size = 2`, the second
enqueue crosses the threshold and the internal `wq.Flush()` call inside
`QueueWrite` snapshots and clears the queue but discards the returned
batches without executing them; a subsequent read (which force-flushes
first) then observes none of the two enqueued operations. -/
theorem C1_queueWrite_discards_threshold_batch :
    (dbQuery (dbQueueWrite (dbQueueWrite
        { wq := ⟨"nodes", [], false, false, 2⟩, committed := [] } false 1) false 2) false).1
      = [] ∧
    (dbQueueWrite (dbQueueWrite
        { wq := ⟨"nodes", [], false, false, 2⟩, committed := [] } false 1) false 2).wq.queue
      = [] :=
  ⟨rfl, rfl⟩

/-- C2 counterexample: the folder-info lookup preceding child generation
reads through `QueryRow`, which performs no flush: with one operation
enqueued before the read (below the batch threshold), the read executes
while the operation is still pending and uncommitted. -/
theorem C2_counterexample_queryRow_misses_pending_write :
    (dbQueryRow (dbQueueWrite
        { wq := ⟨"nodes", [], false, false, 1000⟩, committed := [] } false 7)).1 = [] ∧
    (dbQueueWrite
        { wq := ⟨"nodes", [], false, false, 1000⟩, committed := [] } false 7).wq.queue ≠ [] := by
  exact ⟨rfl, by decide⟩

/-- C2 (amended): a read through `DB.Query` on a table with a write queue
performs one forced flush before querying; when no flush is in flight,
this commits every operation still pending in the queue before the query
executes and leaves the queue empty.  (The folder-info lookup uses
`QueryRow` and does not flush, and `Query`'s single flush — unlike
`ForceFlushTable` — does not repeat until empty.) -/
theorem C2_query_commits_pending_writes (db : PipeDB) (elapsed : Bool)
    (h : db.wq.isWriting = false) :
    (∀ p op, (p, op) ∈ db.wq.queue → op ∈ (dbQuery db elapsed).1) ∧
    (dbQuery db elapsed).2.wq.queue = [] := by
  obtain ⟨⟨tn, q, rtw, iw, bs⟩, committed⟩ := db
  simp only at h
  subst h
  constructor
  · intro p op hmem
    have hop : op ∈ q.map (·.2) := List.mem_map.mpr ⟨(p, op), hmem, rfl⟩
    have hmm := flushNodeQueue_mem ⟨tn, q, false, true, bs⟩ op hop
    exact List.mem_append.mpr (Or.inr hmm)
  · exact flushNodeQueue_clears ⟨tn, q, false, true, bs⟩

/-- Witness for `C2_query_commits_pending_writes` at a concrete state:
one operation pending, no flush in flight. -/
theorem C2_query_commits_pending_writes_witness :
    (∀ p op, (p, op) ∈ (dbQueueWrite
        { wq := ⟨"nodes", [], false, false, 1000⟩, committed := [] } false 7).wq.queue →
      op ∈ (dbQuery (dbQueueWrite
        { wq := ⟨"nodes", [], false, false, 1000⟩, committed := [] } false 7) false).1) ∧
    (dbQuery (dbQueueWrite
        { wq := ⟨"nodes", [], false, false, 1000⟩, committed := [] } false 7) false).2.wq.queue
      = [] :=
  C2_query_commits_pending_writes _ false rfl

/-! ## Table configuration and `ValidateConfig`

`TableManager.ValidateConfig` from the tables package. Go iterates the
`secondary` map; the embedding takes the entries as a list in some
iteration order (which error message wins depends on the order; whether
an error is returned does not). `dst_prob` (`float64`) is modelled
as `ℚ`. -/

structure PrimaryTableConfig where
  tableName : String
  seed : Int
  minChildFolders : Int
  maxChildFolders : Int
  minChildFiles : Int
  maxChildFiles : Int
  minDepth : Int
  maxDepth : Int
deriving DecidableEq

structure SecondaryTableConfig where
  tableName : String
  dstProb : ℚ
deriving DecidableEq

/-- First loop of `ValidateConfig`: per-secondary name and probability
checks. -/
def validateSecondaryLoop (primaryName : String) :
    List (String × SecondaryTableConfig) → Option String
  | [] => none
  | (tableID, cfg) :: rest =>
    if cfg.tableName = "" then some ("secondary table " ++ tableID ++ " name cannot be empty")
    else if cfg.tableName = primaryName then
      some ("secondary table " ++ tableID ++ " name cannot be the same as primary table name")
    else if cfg.dstProb < 0 ∨ 1 < cfg.dstProb then
      some ("secondary table " ++ tableID ++ " dst_prob must be between 0.0 and 1.0")
    else validateSecondaryLoop primaryName rest

/-- Second loop of `ValidateConfig`: duplicate table names, seeded with
the primary name. -/
def duplicateLoop (seen : List String) :
    List (String × SecondaryTableConfig) → Option String
  | [] => none
  | (_, cfg) :: rest =>
    if cfg.tableName ∈ seen then some ("duplicate table name: " ++ cfg.tableName)
    else duplicateLoop (cfg.tableName :: seen) rest

/-- `TableManager.ValidateConfig`: `none` means the configuration is
accepted (the `open` path `NewGhostFSClientWithDB` runs exactly this
check and no other). -/
def validateConfig (primary : PrimaryTableConfig)
    (secondary : List (String × SecondaryTableConfig)) : Option String :=
  if primary.tableName = "" then some "primary table name cannot be empty"
  else
    match validateSecondaryLoop primary.tableName secondary with
    | some e => some e
    | none => duplicateLoop [primary.tableName] secondary

lemma validateSecondaryLoop_none_iff (primaryName : String)
    (sec : List (String × SecondaryTableConfig)) :
    validateSecondaryLoop primaryName sec = none ↔
      ∀ x ∈ sec, x.2.tableName ≠ "" ∧ x.2.tableName ≠ primaryName ∧
        0 ≤ x.2.dstProb ∧ x.2.dstProb ≤ 1 := by
  induction sec with
  | nil => simp [validateSecondaryLoop]
  | cons hd tl ih =>
    obtain ⟨tableID, cfg⟩ := hd
    unfold validateSecondaryLoop
    by_cases h1 : cfg.tableName = ""
    · simp only [if_pos h1]
      constructor
      · intro h; cases h
      · intro h; exact absurd h1 (h ⟨tableID, cfg⟩ (List.mem_cons_self _ _)).1
    · by_cases h2 : cfg.tableName = primaryName
      · simp only [if_neg h1, if_pos h2]
        constructor
        · intro h; cases h
        · intro h; exact absurd h2 (h ⟨tableID, cfg⟩ (List.mem_cons_self _ _)).2.1
      · by_cases h3 : cfg.dstProb < 0 ∨ 1 < cfg.dstProb
        · simp only [if_neg h1, if_neg h2, if_pos h3]
          constructor
          · intro h; cases h
          · intro h
            rcases h ⟨tableID, cfg⟩ (List.mem_cons_self _ _) with ⟨-, -, hge, hle⟩
            rcases h3 with h3 | h3
            · exact absurd hge (not_le.mpr h3)
            · exact absurd hle (not_le.mpr h3)
        · rw [if_neg h1, if_neg h2, if_neg h3, ih]
          rw [not_or, not_lt, not_lt] at h3
          constructor
          · intro h x hx
            rcases List.mem_cons.mp hx with rfl | hx
            · exact ⟨h1, h2, h3.1, h3.2⟩
            · exact h x hx
          · intro h x hx
            exact h x (List.mem_cons_of_mem _ hx)

lemma duplicateLoop_none_iff (seen : List String)
    (sec : List (String × SecondaryTableConfig)) :
    duplicateLoop seen sec = none ↔
      (sec.map (·.2.tableName)).Nodup ∧ ∀ x ∈ sec, x.2.tableName ∉ seen := by
  induction sec generalizing seen with
  | nil => simp [duplicateLoop]
  | cons hd tl ih =>
    obtain ⟨tableID, cfg⟩ := hd
    unfold duplicateLoop
    by_cases h1 : cfg.tableName ∈ seen
    · simp only [if_pos h1]
      constructor
      · intro h; cases h
      · intro h
        exact absurd h1 (h.2 ⟨tableID, cfg⟩ (List.mem_cons_self _ _))
    · simp only [if_neg h1, ih]
      constructor
      · rintro ⟨hnodup, hmem⟩
        refine ⟨List.nodup_cons.mpr ⟨?_, hnodup⟩, ?_⟩
        · intro hc
          rcases List.mem_map.mp hc with ⟨x, hx, hxe⟩
          exact absurd (List.mem_cons_self cfg.tableName seen)
            (by simpa [hxe] using hmem x hx)
        · intro x hx
          rcases List.mem_cons.mp hx with rfl | hx
          · exact h1
          · exact fun hc => (hmem x hx) (List.mem_cons_of_mem _ hc)
      · rintro ⟨hnodup, hmem⟩
        rcases List.nodup_cons.mp hnodup with ⟨hhd, htl⟩
        refine ⟨htl, ?_⟩
        intro x hx hc
        rcases List.mem_cons.mp hc with hc | hc
        · exact hhd (List.mem_map.mpr ⟨x, hx, hc⟩)
        · exact hmem x (List.mem_cons_of_mem _ hx) hc

/-- C7 (amended): `ValidateConfig` — the only validation `open` runs —
accepts a configuration exactly when the primary name is nonempty, every
secondary name is nonempty, distinct from the primary and from every
other secondary, and every `dst_prob` lies in `[0, 1]`.  The min/max
range rules of §6 are not checked at all (see the counterexample). -/
theorem C7_validateConfig_none_iff (primary : PrimaryTableConfig)
    (secondary : List (String × SecondaryTableConfig)) :
    validateConfig primary secondary = none ↔
      primary.tableName ≠ "" ∧
      (∀ x ∈ secondary, x.2.tableName ≠ "" ∧ x.2.tableName ≠ primary.tableName ∧
        0 ≤ x.2.dstProb ∧ x.2.dstProb ≤ 1) ∧
      (secondary.map (·.2.tableName)).Nodup := by
  unfold validateConfig
  by_cases hp : primary.tableName = ""
  · simp [hp]
  · rw [if_neg hp]
    cases hv : validateSecondaryLoop primary.tableName secondary with
    | some e =>
      constructor
      · intro h; cases h
      · rintro ⟨-, hrules, -⟩
        have hnone := (validateSecondaryLoop_none_iff primary.tableName secondary).mpr hrules
        rw [hv] at hnone
        cases hnone
    | none =>
      rw [validateSecondaryLoop_none_iff] at hv
      rw [duplicateLoop_none_iff]
      constructor
      · rintro ⟨hnodup, hseen⟩
        exact ⟨hp, hv, hnodup⟩
      · rintro ⟨-, hrules, hnodup⟩
        refine ⟨hnodup, ?_⟩
        intro x hx hc
        exact (hrules x hx).2.1 (List.mem_singleton.mp hc)

/-- C7 counterexample: a configuration violating the §6 range rule
`min_child_folders ≤ max_child_folders` (5 > 2) that `ValidateConfig` —
hence `open` — accepts without error, refuting "`open` fails whenever
`min_child_folders > max_child_folders`". -/
theorem C7_counterexample_range_rule_unchecked :
    validateConfig ⟨"nodes", 42, 5, 2, 3, 1, 0, 0⟩ [("dst_0", ⟨"dst", mkRat 1 2⟩)] = none ∧
    ¬ ((5 : Int) ≤ 2) ∧ ¬ ((3 : Int) ≤ 1) ∧ ¬ ((1 : Int) ≤ 0) :=
  ⟨rfl, by decide, by decide, by decide⟩

/-! ## The PRNG oracle and the existence model

Go's `math/rand` source (the lagged-Fibonacci generator behind
`rand.NewSource(seed)`) is modelled as an oracle: `draw seed k` is the
`k`-th raw 63-bit value of a generator seeded with `seed`.  The same
seed always yields the same stream — which is all the claims depend on;
the concrete stream values never matter to them.  `Float64` is the draw
scaled into `[0, 1)` (exactly, as a rational); `Intn n` panics (`none`)
for `n ≤ 0` and otherwise yields a value in `[0, n)`, the
uniformization being folded into the oracle. -/

structure RandModel where
  draw : Int → Nat → Nat
  draw_lt : ∀ s k, draw s k < 9223372036854775808

/-- A `rand.New(rand.NewSource(seed))` instance: its seed and how many
values it has produced. -/
structure Rng where
  seed : Int
  pos : Nat
deriving DecidableEq

/-- The roll `float64(Int63()) / (1 << 63)`, as the exact rational
`draw / 2^63` (written with `mkRat` so rolls evaluate). -/
def Rng.float64 (R : RandModel) (r : Rng) : ℚ × Rng :=
  (mkRat (R.draw r.seed r.pos) 9223372036854775808, ⟨r.seed, r.pos + 1⟩)

def Rng.intn (R : RandModel) (r : Rng) (n : Int) : Option (Nat × Rng) :=
  if n ≤ 0 then none else some (R.draw r.seed r.pos % n.toNat, ⟨r.seed, r.pos + 1⟩)

/-- Existence maps: Go's `map[string]bool`, read with a `false` default
for missing keys, written as an association list in insertion order. -/
abbrev ExistenceMap := List (String × Bool)

def emLookup (m : ExistenceMap) (k : String) : Bool :=
  ((m.find? (·.1 == k)).map (·.2)).getD false

/-- `determineSecondaryExistence` (generator version): a fresh PRNG
seeded with the node's own child seed; one `Float64` per secondary view,
drawn while iterating the configured views; inclusion iff the roll is
strictly below `dst_prob`.  `secOrder` is the iteration order the
enclosing `range` over the `secondaryConfigs` map happens to produce —
Go randomizes this order per iteration. -/
def determineSecondaryExistence (R : RandModel) (secOrder : List SecondaryTableConfig)
    (childSeed : Int) : ExistenceMap :=
  (secOrder.foldl
    (fun acc cfg =>
      let fr := Rng.float64 R acc.2
      (acc.1 ++ [(cfg.tableName, decide (fr.1 < cfg.dstProb))], fr.2))
    (([] : ExistenceMap), (⟨childSeed, 0⟩ : Rng))).1

/-- `checkParentDependencies`: AND the child's wishes with the parent's
map over `GetSecondaryTableNames()`. -/
def checkParentDependencies (pmap cmap : ExistenceMap) (names : List String) : ExistenceMap :=
  names.map (fun t => (t, emLookup pmap t && emLookup cmap t))

/-- A concrete stream for the C3 run: first draw `0`, later draws
`2^62` (so the first roll is `0` and every later roll is `1/2`). -/
def oracleSplit : RandModel :=
  ⟨fun _ k => if k = 0 then 0 else 4611686018427387904, by
    intro s k
    dsimp only
    split <;> norm_num⟩

/-- C3: `determineSecondaryExistence` is *not* run-to-run deterministic
with two secondary views.  The per-view rolls are consumed while ranging
over a Go map, whose iteration order is randomized per run; under the
same child seed and the same configured views `a, b` (both
`dst_prob = 0.5`), the iteration order `[a, b]` includes the node in `a`
and the order `[b, a]` excludes it from `a`. -/
theorem C3_existence_depends_on_map_iteration_order :
    emLookup (determineSecondaryExistence oracleSplit
      [⟨"a", mkRat 1 2⟩, ⟨"b", mkRat 1 2⟩] 5) "a" = true ∧
    emLookup (determineSecondaryExistence oracleSplit
      [⟨"b", mkRat 1 2⟩, ⟨"a", mkRat 1 2⟩] 5) "a" = false ∧
    emLookup (determineSecondaryExistence oracleSplit
      [⟨"a", mkRat 1 2⟩, ⟨"b", mkRat 1 2⟩] 5) "b" = false ∧
    emLookup (determineSecondaryExistence oracleSplit
      [⟨"b", mkRat 1 2⟩, ⟨"a", mkRat 1 2⟩] 5) "b" = true :=
  ⟨rfl, rfl, rfl, rfl⟩

/-! ## Nodes, rows, tables and the generator state

A nodes table is its list of rows in insertion (`rowid`) order; the
database maps table names to tables.  Timestamps are engine-defaulted
and ignored by every claim, so rows carry the scanned node columns plus
the `secondary_existence_map` and `child_seed` columns (`none` models
SQL NULL).  Queued write operations are modelled as applied in order
(the sequential semantics of the write pipeline; its loss modes are the
subject of C1/C2 and are modelled there). -/

structure Node where
  id : String
  parentId : String
  name : String
  path : String
  typ : String
  size : Int
  level : Int
  checked : Bool
deriving DecidableEq

structure Row where
  node : Node
  existenceMapJson : Option ExistenceMap
  childSeed : Option Int
deriving DecidableEq

/-- The database: table name to rows, in `rowid` (insertion) order. -/
def TableMap : Type := String → List Row

def getTable (db : TableMap) (t : String) : List Row := db t

def setTable (db : TableMap) (t : String) (rows : List Row) : TableMap :=
  fun u => if u = t then rows else db u

/-- `INSERT OR IGNORE`: append unless a row with this id already exists. -/
def insertOrIgnore (db : TableMap) (t : String) (r : Row) : TableMap :=
  if (getTable db t).any (·.node.id == r.node.id) then db
  else setTable db t (getTable db t ++ [r])

/-- `UPDATE <t> ...`: apply a row transformation to every row of table `t`. -/
def updateRows (db : TableMap) (t : String) (g : Row → Row) : TableMap :=
  fun u => if u = t then (db u).map g else db u

/-- `UPDATE t SET child_seed = ? WHERE id = ?`. -/
def updateChildSeed (db : TableMap) (t id : String) (seed : Int) : TableMap :=
  updateRows db t (fun r => if r.node.id == id then { r with childSeed := some seed } else r)

/-- `UPDATE t SET checked = TRUE WHERE id = ?`. -/
def updateChecked (db : TableMap) (t id : String) : TableMap :=
  updateRows db t
    (fun r => if r.node.id == id then { r with node := { r.node with checked := true } } else r)

structure CachedNodeData where
  childSeed : Int
  existenceMap : ExistenceMap
deriving DecidableEq

/-- `DeterministicGenerator` mutable state: the database plus the node
cache (`folder_id -> (child_seed, existence_map)`). -/
structure GenState where
  db : TableMap
  nodeCache : String → Option CachedNodeData

def cacheGet (st : GenState) (id : String) : Option CachedNodeData := st.nodeCache id

def cacheSet (st : GenState) (id : String) (d : CachedNodeData) : GenState :=
  { st with nodeCache := fun u => if u = id then some d else st.nodeCache u }

/-- The per-call generator configuration. `secondaryOrder` is
`dg.secondaryConfigs` in the iteration order this call's `range` loops
observe — Go randomizes map iteration order, so two calls may observe
different orders of the same configuration set. `secondaryNames` is
`GetSecondaryTableNames()` in its order. -/
structure GenConfig where
  primary : PrimaryTableConfig
  secondaryOrder : List SecondaryTableConfig
  secondaryNames : List String
  masterSeed : Int

/-- `getExistenceMapFromDB`: read `secondary_existence_map` for the first
row with this id; fails when no row exists or the column is NULL (Go's
`Scan` into a string errors on NULL). -/
def getExistenceMapFromDB (st : GenState) (folderID tableName : String) : Option ExistenceMap :=
  match (getTable st.db tableName).find? (·.node.id == folderID) with
  | none => none
  | some r => r.existenceMapJson

/-- `getOrCreateChildSeed`: cache, then the `child_seed IS NOT NULL`
database lookup (caching seed and stored map), then — when the row has
no seed — derive a fresh seed *and a fresh existence map from fresh
draws* (the stored map is not consulted on this path), queue the
`UPDATE`, and cache both. -/
def getOrCreateChildSeed (R : RandModel) (cfg : GenConfig) (st : GenState)
    (folderID tableName : String) : Option (Int × GenState) :=
  match cacheGet st folderID with
  | some d => some (d.childSeed, st)
  | none =>
    match (getTable st.db tableName).find? (fun r => r.node.id == folderID && r.childSeed.isSome) with
    | some r =>
      match r.childSeed, getExistenceMapFromDB st folderID tableName with
      | some cs, some em => some (cs, cacheSet st folderID ⟨cs, em⟩)
      | _, _ => none
    | none =>
      let newSeed := generateDeterministicSeed cfg.masterSeed folderID
      let em := determineSecondaryExistence R cfg.secondaryOrder newSeed
      let st1 : GenState := { st with db := updateChildSeed st.db tableName folderID newSeed }
      some (newSeed, cacheSet st1 folderID ⟨newSeed, em⟩)

/-- `getOrCreateParentExistenceMap`: cache first; otherwise read the map
from the primary table (both Go branches do) and cache it with a
placeholder seed `0`. -/
def getOrCreateParentExistenceMap (st : GenState) (folderID primaryName : String) :
    Option (ExistenceMap × GenState) :=
  match cacheGet st folderID with
  | some d => some (d.existenceMap, st)
  | none =>
    match getExistenceMapFromDB st folderID primaryName with
    | none => none
    | some em => some (em, cacheSet st folderID ⟨0, em⟩)

/-- The generated folder child `folder_i`. -/
def folderChild (cs : Int) (folderID folderPath : String) (level : Int) (i : Nat) : Node :=
  { id := generateDeterministicUUID cs ("folder_" ++ toString i)
    parentId := folderID
    name := "folder_" ++ toString i
    path := buildPath folderPath ("folder_" ++ toString i)
    typ := "folder", size := 0, level := level + 1, checked := false }

/-- The generated file child `file_i.txt`; its size is the
`100 + Intn(900)` draw, taken at stream position `sizePos + i`. -/
def fileChild (R : RandModel) (cs : Int) (folderID folderPath : String) (level : Int)
    (sizePos : Nat) (i : Nat) : Node :=
  { id := generateDeterministicUUID cs ("file_" ++ toString i ++ ".txt")
    parentId := folderID
    name := "file_" ++ toString i ++ ".txt"
    path := buildPath folderPath ("file_" ++ toString i ++ ".txt")
    typ := "file"
    size := 100 + (R.draw cs (sizePos + i) % 900 : Nat)
    level := level + 1, checked := false }

/-- The draw-and-build part of `GenerateChildren`: folder count draw,
folder children, then (unless `foldersOnly`) file count draw and file
children with their size draws; `none` models the `rand.Intn` panic on a
non-positive argument. -/
def genChildrenPure (R : RandModel) (cfg : GenConfig) (cs : Int)
    (folderID folderPath : String) (level : Int) (foldersOnly : Bool) : Option (List Node) :=
  match Rng.intn R ⟨cs, 0⟩ (cfg.primary.maxChildFolders - cfg.primary.minChildFolders + 1) with
  | none => none
  | some (df, r1) =>
    let numFolders : Int := cfg.primary.minChildFolders + df
    let folders := (List.range numFolders.toNat).map (folderChild cs folderID folderPath level)
    if foldersOnly then some folders
    else
      match Rng.intn R r1 (cfg.primary.maxChildFiles - cfg.primary.minChildFiles + 1) with
      | none => none
      | some (dfi, r2) =>
        let numFiles : Int := cfg.primary.minChildFiles + dfi
        some (folders ++ (List.range numFiles.toNat).map (fileChild R cs folderID folderPath level r2.pos))

/-- The existence map `storeChildrenWithSeeds` computes for a child:
its own draws from its own derived seed, ANDed with the parent's map
over the secondary table names. -/
def childMap (R : RandModel) (cfg : GenConfig) (pmap : ExistenceMap) (c : Node) : ExistenceMap :=
  checkParentDependencies pmap
    (determineSecondaryExistence R cfg.secondaryOrder
      (generateDeterministicSeed cfg.masterSeed c.id))
    cfg.secondaryNames

/-- The secondary-table insert loop of `storeChildrenWithSeeds`:
`INSERT OR IGNORE` the row into each secondary table the child's final
map places it in. -/
def storeSecondaries (cmap2 : ExistenceMap) (row : Row) (names : List String)
    (st : GenState) : GenState :=
  names.foldl
    (fun s t => if emLookup cmap2 t then { s with db := insertOrIgnore s.db t row } else s)
    st

/-- One iteration of the `storeChildrenWithSeeds` loop: derive the
child's own seed and existence wishes, AND them with the parent's map
(`childMap`), `INSERT OR IGNORE` into the listed table (with map and
seed), cache, then insert into the secondary tables. -/
def storeOneChild (R : RandModel) (cfg : GenConfig) (tableName : String)
    (pmap : ExistenceMap) (st : GenState) (c : Node) : GenState :=
  let cs := generateDeterministicSeed cfg.masterSeed c.id
  let cmap2 := childMap R cfg pmap c
  let st1 : GenState := { st with db := insertOrIgnore st.db tableName ⟨c, some cmap2, some cs⟩ }
  let st2 := cacheSet st1 c.id ⟨cs, cmap2⟩
  storeSecondaries cmap2 ⟨c, none, some cs⟩ cfg.secondaryNames st2

def storeChildrenWithSeeds (R : RandModel) (cfg : GenConfig) (tableName : String)
    (pmap : ExistenceMap) (children : List Node) (st : GenState) : GenState :=
  children.foldl (storeOneChild R cfg tableName pmap) st

/-- `GenerateChildren`: child seed (created lazily if absent), parent
existence map, deterministic child construction, then persistence. -/
def generateChildren (R : RandModel) (cfg : GenConfig) (st : GenState)
    (folderID folderPath : String) (level : Int) (foldersOnly : Bool)
    (tableName : String) : Option (List Node × GenState) :=
  match getOrCreateChildSeed R cfg st folderID tableName with
  | none => none
  | some (cs, st1) =>
    match getOrCreateParentExistenceMap st1 folderID cfg.primary.tableName with
    | none => none
    | some (pmap, st2) =>
      match genChildrenPure R cfg cs folderID folderPath level foldersOnly with
      | none => none
      | some children =>
        some (children, storeChildrenWithSeeds R cfg tableName pmap children st2)

/-- `GetFolderInfo`: a `QueryRow` read of the folder's row in the
requested table (no queue flush precedes it — see C2). -/
def getFolderInfo (st : GenState) (folderID tableName : String) : Option Node :=
  ((getTable st.db tableName).find? (·.node.id == folderID)).map (·.node)

/-- `MarkFolderAccessed`: the queued `checked = TRUE` update. -/
def markFolderAccessed (st : GenState) (folderID tableName : String) : GenState :=
  { st with db := updateChecked st.db tableName folderID }

/-- `core/items.ListItems` after table-id resolution: folder info, child
generation, then the access mark. -/
def listItems (R : RandModel) (cfg : GenConfig) (st : GenState)
    (folderID : String) (foldersOnly : Bool) (tableName : String) :
    Option (List Node × GenState) :=
  match getFolderInfo st folderID tableName with
  | none => none
  | some folder =>
    match generateChildren R cfg st folderID folder.path folder.level foldersOnly tableName with
    | none => none
    | some (children, st1) => some (children, markFolderAccessed st1 folderID tableName)

/-- An oracle whose draws are all `0`: every inclusion roll is `0`, so
every view with positive probability includes the node. -/
def oracleZero : RandModel := ⟨fun _ _ => 0, by intro s k; norm_num⟩

/-- C4 run configuration: primary `"p"`, one secondary view `"v"` with
probability `1/2`, exactly one folder child per folder. -/
def cfgC4 : GenConfig := ⟨⟨"p", 42, 1, 1, 0, 0, 1, 1⟩, [⟨"v", mkRat 1 2⟩], ["v"], 42⟩

/-- C4 initial state: the primary table holds one folder `F` whose
stored existence map says it is *not* in `"v"` and whose `child_seed`
column is NULL — exactly the shape the bulk seeder leaves behind (its
`INSERT` statements include `secondary_existence_map` but no
`child_seed`); `"v"` is empty and the cache is cold (fresh process). -/
def stC4 : GenState :=
  ⟨fun t => if t = "p"
      then [⟨⟨"F", "", "F", "/F", "folder", 0, 1, false⟩, some [("v", false)], none⟩]
      else [],
   fun _ => none⟩

set_option maxRecDepth 100000 in
/-- C4: the parent-dependency invariant is violated on the lazy
seed-creation path.  Listing `F` (whose row lacks a `child_seed`) makes
`getOrCreateChildSeed` recompute `F`'s existence map from fresh draws
instead of the stored one; the fresh map puts `F` in `"v"`, the child's
map is ANDed against that fake map, and the child is inserted into
`"v"` — where `F` itself does not exist.  After the run: `"v"` holds
exactly one row, a child of `F`; no row of `"v"` is `F`; and `F`'s
stored primary-table map still says `F ∉ "v"`. -/
theorem C4_parent_dependency_violated_on_lazy_seed_path :
    (listItems oracleZero cfgC4 stC4 "F" true "p").map (fun res =>
      ((getTable res.2.db "v").map (fun r => r.node.parentId),
       (getTable res.2.db "v").any (fun r => r.node.id == "F"),
       ((getTable res.2.db "p").filter (fun r => r.node.id == "F")).map
         (fun r => r.existenceMapJson.map (fun m => emLookup m "v"))))
    = some (["F"], false, [some false]) := rfl

/-- C6 run configurations: identical secondary configuration set
`{a ↦ 1/2, b ↦ 1/2}`, observed in the two iteration orders Go's
randomized map ranging can produce in one process. -/
def cfgAB : GenConfig :=
  ⟨⟨"p", 42, 1, 1, 0, 0, 1, 1⟩, [⟨"a", mkRat 1 2⟩, ⟨"b", mkRat 1 2⟩], ["a", "b"], 42⟩

def cfgBA : GenConfig :=
  ⟨⟨"p", 42, 1, 1, 0, 0, 1, 1⟩, [⟨"b", mkRat 1 2⟩, ⟨"a", mkRat 1 2⟩], ["a", "b"], 42⟩

/-- C6 initial state: folder `F` in the primary table, present in both
secondary views, seed and map already cached (as after a prior access). -/
def stC6 : GenState :=
  ⟨fun t => if t = "p"
      then [⟨⟨"F", "", "F", "/F", "folder", 0, 1, false⟩,
             some [("a", true), ("b", true)], some 77⟩]
      else [],
   fun u => if u = "F" then some ⟨77, [("a", true), ("b", true)]⟩ else none⟩

set_option maxRecDepth 100000 in
/-- C6 counterexample: `list_children` is *not* idempotent on the
database when two secondary views are configured.  The per-child
existence rolls are assigned to views in Go-map iteration order; with
the first call observing `[a, b]` and the second `[b, a]` (same process,
same configuration), the first call materializes the child into `a` only
and the second call inserts a *new* row into `b`: table `b` has `0` rows
after call one and `1` row after call two. -/
theorem C6_counterexample_second_call_inserts_new_row :
    ((listItems oracleSplit cfgAB stC6 "F" true "p").bind (fun r1 =>
      (listItems oracleSplit cfgBA r1.2 "F" true "p").map (fun r2 =>
        ((getTable r1.2.db "b").length, (getTable r2.2.db "b").length))))
    = some (0, 1) := rfl

/-- C10: reachable panics and conditional totality of the child-count
draws.  With the folder's seed cached: (a) if `max_child_folders <
min_child_folders` the folder-count draw calls `rand.Intn` with a
non-positive argument and panics (`none`); (b) if files are requested
and `max_child_files < min_child_files` the file-count draw panics;
(c) `ValidateConfig` — the check run at open — is unchanged by the
min/max range fields, so such configurations are not excluded; (d) under
`min ≤ max` for the folder range (and for the file range when files are
requested) the draws are total and every generated count lies in
`[min, max]`. -/
theorem C10_generateChildren_panics_and_bounds
    (R : RandModel) (cfg : GenConfig) (st : GenState)
    (folderID folderPath tableName : String) (level : Int)
    (d : CachedNodeData) (hc : cacheGet st folderID = some d) :
    (cfg.primary.maxChildFolders < cfg.primary.minChildFolders →
      ∀ fo, generateChildren R cfg st folderID folderPath level fo tableName = none) ∧
    (cfg.primary.minChildFolders ≤ cfg.primary.maxChildFolders →
      cfg.primary.maxChildFiles < cfg.primary.minChildFiles →
      generateChildren R cfg st folderID folderPath level false tableName = none) ∧
    (∀ p sec v1 v2 v3 v4 v5 v6,
      validateConfig { p with minChildFolders := v1, maxChildFolders := v2,
                              minChildFiles := v3, maxChildFiles := v4,
                              minDepth := v5, maxDepth := v6 } sec
        = validateConfig p sec) ∧
    (cfg.primary.minChildFolders ≤ cfg.primary.maxChildFolders →
      ∃ children st2,
        generateChildren R cfg st folderID folderPath level true tableName
          = some (children, st2) ∧
        ∃ nf : Int, cfg.primary.minChildFolders ≤ nf ∧ nf ≤ cfg.primary.maxChildFolders ∧
          children.length = nf.toNat) ∧
    (cfg.primary.minChildFolders ≤ cfg.primary.maxChildFolders →
      cfg.primary.minChildFiles ≤ cfg.primary.maxChildFiles →
      ∃ children st2,
        generateChildren R cfg st folderID folderPath level false tableName
          = some (children, st2) ∧
        ∃ nf nfi : Int, cfg.primary.minChildFolders ≤ nf ∧ nf ≤ cfg.primary.maxChildFolders ∧
          cfg.primary.minChildFiles ≤ nfi ∧ nfi ≤ cfg.primary.maxChildFiles ∧
          children.length = nf.toNat + nfi.toNat) := by
  have hseed : getOrCreateChildSeed R cfg st folderID tableName = some (d.childSeed, st) := by
    unfold getOrCreateChildSeed
    rw [hc]
  have hpmap : getOrCreateParentExistenceMap st folderID cfg.primary.tableName
      = some (d.existenceMap, st) := by
    unfold getOrCreateParentExistenceMap
    rw [hc]
  have hgen : ∀ fo, generateChildren R cfg st folderID folderPath level fo tableName =
      match genChildrenPure R cfg d.childSeed folderID folderPath level fo with
      | none => none
      | some children =>
        some (children, storeChildrenWithSeeds R cfg tableName d.existenceMap children st) := by
    intro fo
    simp only [generateChildren, hseed, hpmap]
  refine ⟨?_, ?_, ?_, ?_, ?_⟩
  · intro hlt fo
    have hn : cfg.primary.maxChildFolders - cfg.primary.minChildFolders + 1 ≤ 0 := by omega
    have hp : genChildrenPure R cfg d.childSeed folderID folderPath level fo = none := by
      unfold genChildrenPure Rng.intn
      rw [if_pos hn]
    rw [hgen fo, hp]
  · intro hle hlt
    have hn1 : ¬ (cfg.primary.maxChildFolders - cfg.primary.minChildFolders + 1 ≤ 0) := by omega
    have hn2 : cfg.primary.maxChildFiles - cfg.primary.minChildFiles + 1 ≤ 0 := by omega
    have hp : genChildrenPure R cfg d.childSeed folderID folderPath level false = none := by
      unfold genChildrenPure Rng.intn
      rw [if_neg hn1]
      simp only [Bool.false_eq_true, if_false]
      rw [if_pos hn2]
    rw [hgen false, hp]
  · intro p sec v1 v2 v3 v4 v5 v6
    rfl
  · intro hle
    have hn1 : ¬ (cfg.primary.maxChildFolders - cfg.primary.minChildFolders + 1 ≤ 0) := by omega
    have hmod : R.draw d.childSeed 0 %
        (cfg.primary.maxChildFolders - cfg.primary.minChildFolders + 1).toNat
        < (cfg.primary.maxChildFolders - cfg.primary.minChildFolders + 1).toNat :=
      Nat.mod_lt _ (by omega)
    have hp : genChildrenPure R cfg d.childSeed folderID folderPath level true
        = some ((List.range (cfg.primary.minChildFolders +
            ((R.draw d.childSeed 0 %
              (cfg.primary.maxChildFolders - cfg.primary.minChildFolders + 1).toNat : Nat) :
              Int)).toNat).map
            (folderChild d.childSeed folderID folderPath level)) := by
      unfold genChildrenPure Rng.intn
      rw [if_neg hn1]
      rfl
    rw [hgen true, hp]
    refine ⟨_, _, rfl, ?_⟩
    refine ⟨cfg.primary.minChildFolders + ((R.draw d.childSeed 0 %
        (cfg.primary.maxChildFolders - cfg.primary.minChildFolders + 1).toNat : Nat) : Int),
      by omega, by omega, by simp⟩
  · intro hle hlef
    have hn1 : ¬ (cfg.primary.maxChildFolders - cfg.primary.minChildFolders + 1 ≤ 0) := by omega
    have hn2 : ¬ (cfg.primary.maxChildFiles - cfg.primary.minChildFiles + 1 ≤ 0) := by omega
    have hmod : R.draw d.childSeed 0 %
        (cfg.primary.maxChildFolders - cfg.primary.minChildFolders + 1).toNat
        < (cfg.primary.maxChildFolders - cfg.primary.minChildFolders + 1).toNat :=
      Nat.mod_lt _ (by omega)
    have hmod2 : R.draw d.childSeed 1 %
        (cfg.primary.maxChildFiles - cfg.primary.minChildFiles + 1).toNat
        < (cfg.primary.maxChildFiles - cfg.primary.minChildFiles + 1).toNat :=
      Nat.mod_lt _ (by omega)
    have hp : genChildrenPure R cfg d.childSeed folderID folderPath level false
        = some (((List.range (cfg.primary.minChildFolders +
            ((R.draw d.childSeed 0 %
              (cfg.primary.maxChildFolders - cfg.primary.minChildFolders + 1).toNat : Nat) :
              Int)).toNat).map
            (folderChild d.childSeed folderID folderPath level)) ++
          ((List.range (cfg.primary.minChildFiles +
            ((R.draw d.childSeed 1 %
              (cfg.primary.maxChildFiles - cfg.primary.minChildFiles + 1).toNat : Nat) :
              Int)).toNat).map
            (fileChild R d.childSeed folderID folderPath level 2))) := by
      unfold genChildrenPure Rng.intn
      rw [if_neg hn1]
      simp only [Bool.false_eq_true, if_false]
      rw [if_neg hn2]
    rw [hgen false, hp]
    refine ⟨_, _, rfl, ?_⟩
    refine ⟨cfg.primary.minChildFolders + ((R.draw d.childSeed 0 %
        (cfg.primary.maxChildFolders - cfg.primary.minChildFolders + 1).toNat : Nat) : Int),
      cfg.primary.minChildFiles + ((R.draw d.childSeed 1 %
        (cfg.primary.maxChildFiles - cfg.primary.minChildFiles + 1).toNat : Nat) : Int),
      by omega, by omega, by omega, by omega, by simp⟩

/-- C10 witness configuration: `min_child_folders = 2 >
max_child_folders = 1`, file range degenerate (`0/0`). -/
def cfgW : GenConfig := ⟨⟨"p", 42, 2, 1, 0, 0, 1, 1⟩, [], [], 42⟩

/-- C10 witness state: empty tables, folder `F`'s seed cached. -/
def stW : GenState := ⟨fun _ => [], fun u => if u = "F" then some ⟨7, []⟩ else none⟩

/-- Witness for `C10_generateChildren_panics_and_bounds` at a concrete
inverted folder range: the cache hypothesis holds by evaluation and the
conclusion follows by applying the theorem. -/
theorem C10_generateChildren_panics_and_bounds_witness :
    cacheGet stW "F" = some ⟨7, []⟩ ∧
    (((1 : Int) < 2 →
      ∀ fo, generateChildren oracleZero cfgW stW "F" "/F" 1 fo "p" = none) ∧
    ((2 : Int) ≤ 1 → (0 : Int) < 0 →
      generateChildren oracleZero cfgW stW "F" "/F" 1 false "p" = none) ∧
    (∀ p sec v1 v2 v3 v4 v5 v6,
      validateConfig { p with minChildFolders := v1, maxChildFolders := v2,
                              minChildFiles := v3, maxChildFiles := v4,
                              minDepth := v5, maxDepth := v6 } sec
        = validateConfig p sec) ∧
    ((2 : Int) ≤ 1 →
      ∃ children st2,
        generateChildren oracleZero cfgW stW "F" "/F" 1 true "p" = some (children, st2) ∧
        ∃ nf : Int, 2 ≤ nf ∧ nf ≤ 1 ∧ children.length = nf.toNat) ∧
    ((2 : Int) ≤ 1 → (0 : Int) ≤ 0 →
      ∃ children st2,
        generateChildren oracleZero cfgW stW "F" "/F" 1 false "p" = some (children, st2) ∧
        ∃ nf nfi : Int, 2 ≤ nf ∧ nf ≤ 1 ∧ 0 ≤ nfi ∧ nfi ≤ 0 ∧
          children.length = nf.toNat + nfi.toNat)) :=
  ⟨rfl, C10_generateChildren_panics_and_bounds oracleZero cfgW stW "F" "/F" "p" 1 ⟨7, []⟩ rfl⟩

/-! ## Idempotence infrastructure (C6)

Presence and stability lemmas for the table operations, building up to:
a second `listItems` call with the same view-iteration order returns the
same children and changes no table. -/

/-- A row with this id exists in table `t`. -/
def hasRow (db : TableMap) (t id : String) : Bool :=
  (getTable db t).any (·.node.id == id)

lemma getTable_setTable_self (db : TableMap) (t : String) (rows : List Row) :
    getTable (setTable db t rows) t = rows := if_pos rfl

lemma getTable_setTable_ne (db : TableMap) (t u : String) (rows : List Row) (h : u ≠ t) :
    getTable (setTable db t rows) u = getTable db u := if_neg h

lemma insertOrIgnore_of_hasRow (db : TableMap) (t : String) (r : Row)
    (h : hasRow db t r.node.id = true) : insertOrIgnore db t r = db := by
  unfold hasRow at h
  unfold insertOrIgnore
  rw [if_pos h]

lemma hasRow_insertOrIgnore_self (db : TableMap) (t : String) (r : Row) :
    hasRow (insertOrIgnore db t r) t r.node.id = true := by
  unfold hasRow insertOrIgnore
  by_cases h : (getTable db t).any (·.node.id == r.node.id) = true
  · rw [if_pos h]; exact h
  · rw [if_neg h, getTable_setTable_self]
    simp [List.any_append]

lemma hasRow_insertOrIgnore_mono (db : TableMap) (t u id : String) (r : Row)
    (h : hasRow db u id = true) : hasRow (insertOrIgnore db t r) u id = true := by
  unfold insertOrIgnore
  by_cases hp : (getTable db t).any (·.node.id == r.node.id) = true
  · rw [if_pos hp]; exact h
  · rw [if_neg hp]
    by_cases ht : u = t
    · subst ht
      unfold hasRow at h ⊢
      rw [getTable_setTable_self, List.any_append, h]
      rfl
    · unfold hasRow at h ⊢
      rw [getTable_setTable_ne _ _ _ _ ht]
      exact h

lemma getTable_updateRows_self (db : TableMap) (t : String) (g : Row → Row) :
    getTable (updateRows db t g) t = (getTable db t).map g := if_pos rfl

lemma getTable_updateRows_ne (db : TableMap) (t u : String) (g : Row → Row) (h : u ≠ t) :
    getTable (updateRows db t g) u = getTable db u := if_neg h

lemma hasRow_updateRows (db : TableMap) (t u id : String) (g : Row → Row)
    (hg : ∀ r, (g r).node.id = r.node.id) :
    hasRow (updateRows db t g) u id = hasRow db u id := by
  unfold hasRow
  by_cases h : u = t
  · subst h
    rw [getTable_updateRows_self, List.any_map]
    have he : ((fun r : Row => r.node.id == id) ∘ g) = (fun r : Row => r.node.id == id) :=
      funext fun r => by simp only [Function.comp_apply, hg r]
    rw [he]
  · rw [getTable_updateRows_ne _ _ _ _ h]

lemma find?_append_some {p : Row → Bool} {l1 : List Row} {x : Row}
    (h : l1.find? p = some x) (l2 : List Row) : (l1 ++ l2).find? p = some x := by
  induction l1 with
  | nil => cases h
  | cons a as ih =>
    rw [List.cons_append]
    cases hpa : p a with
    | true =>
      rw [List.find?_cons_of_pos _ hpa] at h
      rw [List.find?_cons_of_pos _ hpa]
      exact h
    | false =>
      rw [List.find?_cons_of_neg _ (by simp [hpa])] at h
      rw [List.find?_cons_of_neg _ (by simp [hpa])]
      exact ih h

lemma find?_map_pred {g : Row → Row} {p : Row → Bool}
    (hg : ∀ r, p (g r) = p r) (l : List Row) :
    (l.map g).find? p = (l.find? p).map g := by
  induction l with
  | nil => rfl
  | cons a as ih =>
    rw [List.map_cons]
    cases hpa : p a with
    | true =>
      rw [List.find?_cons_of_pos _ ((hg a).trans hpa), List.find?_cons_of_pos _ hpa]
      rfl
    | false =>
      rw [List.find?_cons_of_neg _ (by simp [(hg a).trans hpa]),
        List.find?_cons_of_neg _ (by simp [hpa])]
      exact ih

lemma find?_insertOrIgnore {db : TableMap} {t u : String} {r : Row} {p : Row → Bool} {x : Row}
    (h : (getTable db u).find? p = some x) :
    (getTable (insertOrIgnore db t r) u).find? p = some x := by
  unfold insertOrIgnore
  by_cases hp : (getTable db t).any (·.node.id == r.node.id) = true
  · rw [if_pos hp]; exact h
  · rw [if_neg hp]
    by_cases ht : u = t
    · subst ht
      rw [getTable_setTable_self]
      exact find?_append_some h _
    · rw [getTable_setTable_ne _ _ _ _ ht]
      exact h

lemma cacheGet_cacheSet_self (st : GenState) (id : String) (d : CachedNodeData) :
    cacheGet (cacheSet st id d) id = some d := if_pos rfl

lemma cacheGet_cacheSet_ne (st : GenState) (id x : String) (d : CachedNodeData)
    (h : x ≠ id) : cacheGet (cacheSet st id d) x = cacheGet st x := if_neg h

lemma storeSecondaries_cache (cmap2 : ExistenceMap) (row : Row) (names : List String)
    (st : GenState) : (storeSecondaries cmap2 row names st).nodeCache = st.nodeCache := by
  induction names generalizing st with
  | nil => rfl
  | cons n rest ih =>
    simp only [storeSecondaries, List.foldl_cons] at *
    rw [ih]
    by_cases h : emLookup cmap2 n = true
    · rw [if_pos h]
    · rw [if_neg h]

lemma storeSecondaries_hasRow_mono (cmap2 : ExistenceMap) (row : Row) (names : List String)
    (st : GenState) (u id : String) (h : hasRow st.db u id = true) :
    hasRow (storeSecondaries cmap2 row names st).db u id = true := by
  induction names generalizing st with
  | nil => exact h
  | cons n rest ih =>
    simp only [storeSecondaries, List.foldl_cons] at *
    by_cases hl : emLookup cmap2 n = true
    · rw [if_pos hl]
      exact ih _ (hasRow_insertOrIgnore_mono _ _ _ _ _ h)
    · rw [if_neg hl]
      exact ih _ h

lemma storeSecondaries_find? (cmap2 : ExistenceMap) (row : Row) (names : List String)
    (st : GenState) (u : String) (p : Row → Bool) (x : Row)
    (h : (getTable st.db u).find? p = some x) :
    (getTable (storeSecondaries cmap2 row names st).db u).find? p = some x := by
  induction names generalizing st with
  | nil => exact h
  | cons n rest ih =>
    simp only [storeSecondaries, List.foldl_cons] at *
    by_cases hl : emLookup cmap2 n = true
    · rw [if_pos hl]
      exact ih _ (find?_insertOrIgnore h)
    · rw [if_neg hl]
      exact ih _ h

lemma storeSecondaries_noop (cmap2 : ExistenceMap) (row : Row) (names : List String)
    (st : GenState)
    (h : ∀ t ∈ names, emLookup cmap2 t = true → hasRow st.db t row.node.id = true) :
    storeSecondaries cmap2 row names st = st := by
  induction names generalizing st with
  | nil => rfl
  | cons n rest ih =>
    simp only [storeSecondaries, List.foldl_cons] at *
    by_cases hl : emLookup cmap2 n = true
    · rw [if_pos hl, insertOrIgnore_of_hasRow _ _ _ (h n (List.mem_cons_self _ _) hl)]
      exact ih _ (fun t ht => h t (List.mem_cons_of_mem _ ht))
    · rw [if_neg hl]
      exact ih _ (fun t ht => h t (List.mem_cons_of_mem _ ht))

lemma storeSecondaries_present (cmap2 : ExistenceMap) (row : Row) (names : List String)
    (st : GenState) (t : String) (htm : t ∈ names) (hl : emLookup cmap2 t = true) :
    hasRow (storeSecondaries cmap2 row names st).db t row.node.id = true := by
  induction names generalizing st with
  | nil => cases htm
  | cons n rest ih =>
    simp only [storeSecondaries, List.foldl_cons]
    rcases List.mem_cons.mp htm with rfl | hmem
    · rw [if_pos hl]
      exact storeSecondaries_hasRow_mono _ _ _ _ _ _ (hasRow_insertOrIgnore_self _ _ _)
    · by_cases hln : emLookup cmap2 n = true
      · rw [if_pos hln]
        exact ih _ hmem
      · rw [if_neg hln]
        exact ih _ hmem

lemma storeOneChild_cache_ne (R : RandModel) (cfg : GenConfig) (tableName : String)
    (pmap : ExistenceMap) (st : GenState) (c : Node) (x : String) (h : x ≠ c.id) :
    cacheGet (storeOneChild R cfg tableName pmap st c) x = cacheGet st x := by
  unfold storeOneChild
  show cacheGet (storeSecondaries _ _ _ _) x = cacheGet st x
  unfold cacheGet
  rw [storeSecondaries_cache]
  exact cacheGet_cacheSet_ne _ _ _ _ h

lemma storeOneChild_hasRow_mono (R : RandModel) (cfg : GenConfig) (tableName : String)
    (pmap : ExistenceMap) (st : GenState) (c : Node) (u id : String)
    (h : hasRow st.db u id = true) :
    hasRow (storeOneChild R cfg tableName pmap st c).db u id = true := by
  unfold storeOneChild
  exact storeSecondaries_hasRow_mono _ _ _ _ _ _
    (hasRow_insertOrIgnore_mono _ _ _ _ _ h)

lemma storeOneChild_find? (R : RandModel) (cfg : GenConfig) (tableName : String)
    (pmap : ExistenceMap) (st : GenState) (c : Node) (u : String) (p : Row → Bool) (x : Row)
    (h : (getTable st.db u).find? p = some x) :
    (getTable (storeOneChild R cfg tableName pmap st c).db u).find? p = some x := by
  unfold storeOneChild
  exact storeSecondaries_find? _ _ _ _ _ _ _ (find?_insertOrIgnore h)

lemma storeOneChild_present (R : RandModel) (cfg : GenConfig) (tableName : String)
    (pmap : ExistenceMap) (st : GenState) (c : Node) :
    hasRow (storeOneChild R cfg tableName pmap st c).db tableName c.id = true ∧
    ∀ t ∈ cfg.secondaryNames, emLookup (childMap R cfg pmap c) t = true →
      hasRow (storeOneChild R cfg tableName pmap st c).db t c.id = true := by
  constructor
  · unfold storeOneChild
    exact storeSecondaries_hasRow_mono _ _ _ _ _ _ (hasRow_insertOrIgnore_self _ _ _)
  · intro t ht hl
    unfold storeOneChild
    exact storeSecondaries_present _ _ _ _ _ ht hl

lemma storeOneChild_noop (R : RandModel) (cfg : GenConfig) (tableName : String)
    (pmap : ExistenceMap) (st : GenState) (c : Node)
    (h1 : hasRow st.db tableName c.id = true)
    (h2 : ∀ t ∈ cfg.secondaryNames, emLookup (childMap R cfg pmap c) t = true →
      hasRow st.db t c.id = true) :
    (storeOneChild R cfg tableName pmap st c).db = st.db := by
  simp only [storeOneChild]
  rw [insertOrIgnore_of_hasRow st.db tableName
    (Row.mk c (some (childMap R cfg pmap c)) (some (generateDeterministicSeed cfg.masterSeed c.id))) h1]
  rw [storeSecondaries_noop _ _ _ _ (fun t ht hl => h2 t ht hl)]
  rfl

lemma storeChildren_cache_ne (R : RandModel) (cfg : GenConfig) (tableName : String)
    (pmap : ExistenceMap) (children : List Node) (st : GenState) (x : String)
    (h : ∀ c ∈ children, c.id ≠ x) :
    cacheGet (storeChildrenWithSeeds R cfg tableName pmap children st) x = cacheGet st x := by
  induction children generalizing st with
  | nil => rfl
  | cons c rest ih =>
    simp only [storeChildrenWithSeeds, List.foldl_cons] at *
    rw [ih _ (fun c' hc' => h c' (List.mem_cons_of_mem _ hc'))]
    exact storeOneChild_cache_ne _ _ _ _ _ _ _
      (fun he => h c (List.mem_cons_self _ _) he.symm)

lemma storeChildren_hasRow_mono (R : RandModel) (cfg : GenConfig) (tableName : String)
    (pmap : ExistenceMap) (children : List Node) (st : GenState) (u id : String)
    (h : hasRow st.db u id = true) :
    hasRow (storeChildrenWithSeeds R cfg tableName pmap children st).db u id = true := by
  induction children generalizing st with
  | nil => exact h
  | cons c rest ih =>
    simp only [storeChildrenWithSeeds, List.foldl_cons] at *
    exact ih _ (storeOneChild_hasRow_mono _ _ _ _ _ _ _ _ h)

lemma storeChildren_find? (R : RandModel) (cfg : GenConfig) (tableName : String)
    (pmap : ExistenceMap) (children : List Node) (st : GenState) (u : String)
    (p : Row → Bool) (x : Row) (h : (getTable st.db u).find? p = some x) :
    (getTable (storeChildrenWithSeeds R cfg tableName pmap children st).db u).find? p
      = some x := by
  induction children generalizing st with
  | nil => exact h
  | cons c rest ih =>
    simp only [storeChildrenWithSeeds, List.foldl_cons] at *
    exact ih _ (storeOneChild_find? _ _ _ _ _ _ _ _ _ h)

lemma storeChildren_present (R : RandModel) (cfg : GenConfig) (tableName : String)
    (pmap : ExistenceMap) (children : List Node) (st : GenState) (c : Node)
    (hmem : c ∈ children) :
    hasRow (storeChildrenWithSeeds R cfg tableName pmap children st).db tableName c.id = true ∧
    ∀ t ∈ cfg.secondaryNames, emLookup (childMap R cfg pmap c) t = true →
      hasRow (storeChildrenWithSeeds R cfg tableName pmap children st).db t c.id = true := by
  induction children generalizing st with
  | nil => cases hmem
  | cons c0 rest ih =>
    simp only [storeChildrenWithSeeds, List.foldl_cons] at *
    rcases List.mem_cons.mp hmem with rfl | hmem0
    · constructor
      · exact storeChildren_hasRow_mono _ _ _ _ _ _ _ _
          (storeOneChild_present R cfg tableName pmap st c).1
      · intro t ht hl
        exact storeChildren_hasRow_mono _ _ _ _ _ _ _ _
          ((storeOneChild_present R cfg tableName pmap st c).2 t ht hl)
    · exact ih _ hmem0

lemma storeChildren_noop (R : RandModel) (cfg : GenConfig) (tableName : String)
    (pmap : ExistenceMap) (children : List Node) (st : GenState)
    (h : ∀ c ∈ children, hasRow st.db tableName c.id = true ∧
      ∀ t ∈ cfg.secondaryNames, emLookup (childMap R cfg pmap c) t = true →
        hasRow st.db t c.id = true) :
    (storeChildrenWithSeeds R cfg tableName pmap children st).db = st.db := by
  induction children generalizing st with
  | nil => rfl
  | cons c rest ih =>
    simp only [storeChildrenWithSeeds, List.foldl_cons] at *
    have hdb : (storeOneChild R cfg tableName pmap st c).db = st.db :=
      storeOneChild_noop _ _ _ _ _ _ (h c (List.mem_cons_self _ _)).1
        (h c (List.mem_cons_self _ _)).2
    rw [ih _ (fun c' hc' => by rw [hdb]; exact h c' (List.mem_cons_of_mem _ hc'))]
    exact hdb

lemma checkedRow_id_pres (id : String) (r : Row) :
    ((if r.node.id == id then { r with node := { r.node with checked := true } } else r) : Row).node.id
      = r.node.id := by
  by_cases h : (r.node.id == id) = true
  · rw [if_pos h]
  · rw [if_neg h]

lemma hasRow_updateChecked (db : TableMap) (t fid u id : String) :
    hasRow (updateChecked db t fid) u id = hasRow db u id :=
  hasRow_updateRows _ _ _ _ _ (checkedRow_id_pres fid)

lemma updateChecked_idem (db : TableMap) (t id : String) :
    updateChecked (updateChecked db t id) t id = updateChecked db t id := by
  unfold updateChecked updateRows
  funext u
  by_cases h : u = t
  · simp only [if_pos h, List.map_map]
    congr 1
    funext r
    obtain ⟨⟨i, pid, nm, ph, ty, sz, lv, ck⟩, em, cs⟩ := r
    by_cases hr : (i == id) = true <;> simp [Function.comp, hr]
  · simp only [if_neg h]

/-- With the folder's seed and map cached, `GenerateChildren` reduces to
the pure child construction followed by the store, with the cached seed
and map and an unchanged pre-store state. -/
lemma generateChildren_cacheHit (R : RandModel) (cfg : GenConfig) (st : GenState)
    (folderID folderPath : String) (level : Int) (fo : Bool) (tableName : String)
    (d : CachedNodeData) (hc : cacheGet st folderID = some d) :
    generateChildren R cfg st folderID folderPath level fo tableName =
      match genChildrenPure R cfg d.childSeed folderID folderPath level fo with
      | none => none
      | some children =>
        some (children, storeChildrenWithSeeds R cfg tableName d.existenceMap children st) := by
  have hseed : getOrCreateChildSeed R cfg st folderID tableName = some (d.childSeed, st) := by
    unfold getOrCreateChildSeed
    rw [hc]
  have hpmap : getOrCreateParentExistenceMap st folderID cfg.primary.tableName
      = some (d.existenceMap, st) := by
    unfold getOrCreateParentExistenceMap
    rw [hc]
  simp only [generateChildren, hseed, hpmap]

set_option maxHeartbeats 1000000 in
/-- C6 (amended): once the folder's seed and existence map are cached
(as after any prior access), a second `list_children` call that observes
the same secondary-view iteration order as the first returns the same
children and leaves every table — primary and secondary — unchanged:
zero net new rows.  (The child ids are deterministic functions of
`(child_seed, name)` and all child inserts are `INSERT OR IGNORE`; the
`hids` hypothesis rules out a child id colliding with the folder's own
id, which the SHA-256-based uuids never produce in practice.) -/
theorem C6_second_listItems_idempotent
    (R : RandModel) (cfg : GenConfig) (st : GenState)
    (folderID tableName : String) (fo : Bool) (d : CachedNodeData)
    (children : List Node) (st1 : GenState)
    (hc : cacheGet st folderID = some d)
    (h1 : listItems R cfg st folderID fo tableName = some (children, st1))
    (hids : ∀ c ∈ children, c.id ≠ folderID) :
    ∃ st2, listItems R cfg st1 folderID fo tableName = some (children, st2) ∧
      st2.db = st1.db := by
  unfold listItems at h1
  cases hfi : getFolderInfo st folderID tableName with
  | none =>
    rw [hfi] at h1
    cases h1
  | some folder =>
    rw [hfi] at h1
    simp only at h1
    rw [generateChildren_cacheHit R cfg st folderID folder.path folder.level fo tableName d hc]
      at h1
    cases hpure : genChildrenPure R cfg d.childSeed folderID folder.path folder.level fo with
    | none =>
      rw [hpure] at h1
      cases h1
    | some ch =>
      rw [hpure] at h1
      simp only [Option.some.injEq, Prod.mk.injEq] at h1
      obtain ⟨hch, hst1⟩ := h1
      subst hch
      subst hst1
      -- dissect the folder-info read
      unfold getFolderInfo at hfi
      cases hr0 : (getTable st.db tableName).find? (·.node.id == folderID) with
      | none =>
        rw [hr0] at hfi
        cases hfi
      | some r0 =>
        rw [hr0] at hfi
        simp only [Option.map_some', Option.some.injEq] at hfi
        subst hfi
        have hptrue : (r0.node.id == folderID) = true := by
          have := List.find?_some hr0
          simpa using this
        -- names for the call-1 post-store state
        set S := storeChildrenWithSeeds R cfg tableName (d.existenceMap) ch st with hS
        -- the folder row survives call 1 with path and level intact
        have hr1 : (getTable S.db tableName).find? (·.node.id == folderID) = some r0 :=
          storeChildren_find? _ _ _ _ _ _ _ _ _ hr0
        have hfind1 : (getTable (markFolderAccessed S folderID tableName).db tableName).find?
            (·.node.id == folderID)
            = some { r0 with node := { r0.node with checked := true } } := by
          show (getTable (updateChecked S.db tableName folderID) tableName).find? _ = _
          unfold updateChecked
          rw [getTable_updateRows_self, find?_map_pred (fun r => by
            rw [checkedRow_id_pres]), hr1]
          simp only [Option.map_some']
          rw [if_pos hptrue]
        have hfi1 : getFolderInfo (markFolderAccessed S folderID tableName) folderID tableName
            = some ({ r0.node with checked := true } : Node) := by
          unfold getFolderInfo
          rw [hfind1]
          rfl
        -- the cache entry survives call 1
        have hc1 : cacheGet (markFolderAccessed S folderID tableName) folderID = some d := by
          show cacheGet S folderID = some d
          rw [hS, storeChildren_cache_ne _ _ _ _ _ _ _ hids]
          exact hc
        -- presence of every child in every insert target after call 1
        have hpres : ∀ c ∈ ch,
            hasRow (markFolderAccessed S folderID tableName).db tableName c.id = true ∧
            ∀ t ∈ cfg.secondaryNames, emLookup (childMap R cfg d.existenceMap c) t = true →
              hasRow (markFolderAccessed S folderID tableName).db t c.id = true := by
          intro c hcm
          have hp := storeChildren_present R cfg tableName d.existenceMap ch st c hcm
          constructor
          · show hasRow (updateChecked S.db tableName folderID) tableName c.id = true
            rw [hasRow_updateChecked]
            exact hp.1
          · intro t ht hl
            show hasRow (updateChecked S.db tableName folderID) t c.id = true
            rw [hasRow_updateChecked]
            exact hp.2 t ht hl
        -- the second store is a database no-op
        have hnoop : (storeChildrenWithSeeds R cfg tableName d.existenceMap ch
            (markFolderAccessed S folderID tableName)).db
            = (markFolderAccessed S folderID tableName).db :=
          storeChildren_noop _ _ _ _ _ _ hpres
        refine ⟨markFolderAccessed (storeChildrenWithSeeds R cfg tableName d.existenceMap
          ch (markFolderAccessed S folderID tableName)) folderID tableName, ?_, ?_⟩
        · unfold listItems
          rw [hfi1]
          simp only
          rw [generateChildren_cacheHit R cfg (markFolderAccessed S folderID tableName) folderID
            ({ r0.node with checked := true } : Node).path
            ({ r0.node with checked := true } : Node).level fo tableName d hc1]
          have hpath : ({ r0.node with checked := true } : Node).path = r0.node.path := rfl
          have hlevel : ({ r0.node with checked := true } : Node).level = r0.node.level := rfl
          rw [hpath, hlevel, hpure]
        · show (updateChecked (storeChildrenWithSeeds R cfg tableName d.existenceMap ch
              (markFolderAccessed S folderID tableName)).db tableName folderID)
            = (markFolderAccessed S folderID tableName).db
          rw [hnoop]
          show updateChecked (updateChecked S.db tableName folderID) tableName folderID
            = updateChecked S.db tableName folderID
          exact updateChecked_idem _ _ _

/-- The single child the C6 witness run generates. -/
def chC6 : List Node := [folderChild 77 "F" "/F" 1 0]

/-- The state after the C6 witness run's first call. -/
def st1C6 : GenState := ((listItems oracleSplit cfgAB stC6 "F" true "p").getD ([], stC6)).2

set_option maxRecDepth 1000000 in
/-- Witness for `C6_second_listItems_idempotent`: the concrete run of
`stC6` under the `[a, b]` iteration order, applied twice with the same
order — the second call returns the same child and leaves every table
unchanged. -/
theorem C6_second_listItems_idempotent_witness :
    cacheGet stC6 "F" = some ⟨77, [("a", true), ("b", true)]⟩ ∧
    listItems oracleSplit cfgAB stC6 "F" true "p" = some (chC6, st1C6) ∧
    (∀ c ∈ chC6, c.id ≠ "F") ∧
    ∃ st2, listItems oracleSplit cfgAB st1C6 "F" true "p" = some (chC6, st2) ∧
      st2.db = st1C6.db := by
  have hids : ∀ c ∈ chC6, c.id ≠ "F" := by
    intro c hcm
    have hceq := List.mem_singleton.mp hcm
    subst hceq
    intro h
    have hlen : (folderChild 77 "F" "/F" 1 0).id.length = 36 := rfl
    rw [h] at hlen
    exact absurd hlen (by decide)
  exact ⟨rfl, rfl, hids,
    C6_second_listItems_idempotent oracleSplit cfgAB stC6 "F" "p" true
      ⟨77, [("a", true), ("b", true)]⟩ chC6 st1C6 rfl rfl hids⟩

/-! ## The bulk seeder (eager generation, `seed/seed.go`)

Per-parent child generation from `generateChildrenForBatch`: ids come
from `uuid.New()` — modelled as an oracle stream `uuids` indexed by how
many uuids have been drawn — counts, sizes and existence rolls come from
the *single shared* PRNG seeded with the master seed, paths are built
with the seeder's unconditional `buildPath`, and inserts are plain
`INSERT` (no conflict clause), appending rows in `rowid` order. -/

structure ParentNodeWithExistence where
  id : String
  path : String
  existenceMap : ExistenceMap

/-- `determineSecondaryExistence` (seeder version): same roll logic but
drawing from the caller's shared PRNG. -/
def seedDetermineSecondaryExistence (R : RandModel) (secOrder : List SecondaryTableConfig)
    (rng : Rng) : ExistenceMap × Rng :=
  secOrder.foldl
    (fun acc cfg =>
      let fr := Rng.float64 R acc.2
      (acc.1 ++ [(cfg.tableName, decide (fr.1 < cfg.dstProb))], fr.2))
    (([] : ExistenceMap), rng)

/-- Plain `INSERT`: append the row. -/
def eagerInsert (db : TableMap) (t : String) (r : Row) : TableMap :=
  setTable db t (getTable db t ++ [r])

/-- One folder iteration of the seeder's per-parent loop, threading
`(db, rng, uuid position)`. -/
def eagerStep (R : RandModel) (uuids : Nat → String) (cfg : GenConfig)
    (parent : ParentNodeWithExistence) (targetLevel : Int) :
    (TableMap × Rng × Nat) → Nat → (TableMap × Rng × Nat) :=
  fun acc i =>
    let folderID := uuids acc.2.2
    let folderName := "folder_" ++ toString i
    let folderPath := seedBuildPath parent.path folderName
    let em := seedDetermineSecondaryExistence R cfg.secondaryOrder acc.2.1
    let cmap2 := checkParentDependencies parent.existenceMap em.1 cfg.secondaryNames
    let node : Node := ⟨folderID, parent.id, folderName, folderPath, "folder", 0, targetLevel, false⟩
    let db1 := eagerInsert acc.1 cfg.primary.tableName ⟨node, some cmap2, none⟩
    let db2 := cmap2.foldl
      (fun db e => if e.2 then eagerInsert db e.1 ⟨node, none, none⟩ else db) db1
    (db2, em.2, acc.2.2 + 1)

/-- One file iteration: existence rolls first, then the
`100 + Intn(900)` size draw, as in the source order. -/
def eagerFileStep (R : RandModel) (uuids : Nat → String) (cfg : GenConfig)
    (parent : ParentNodeWithExistence) (targetLevel : Int) :
    (TableMap × Rng × Nat) → Nat → (TableMap × Rng × Nat) :=
  fun acc i =>
    let fileID := uuids acc.2.2
    let fileName := "file_" ++ toString i ++ ".txt"
    let filePath := seedBuildPath parent.path fileName
    let em := seedDetermineSecondaryExistence R cfg.secondaryOrder acc.2.1
    let cmap2 := checkParentDependencies parent.existenceMap em.1 cfg.secondaryNames
    let sz : Int := 100 + (R.draw em.2.seed em.2.pos % 900 : Nat)
    let rng2 : Rng := ⟨em.2.seed, em.2.pos + 1⟩
    let node : Node := ⟨fileID, parent.id, fileName, filePath, "file", sz, targetLevel, false⟩
    let db1 := eagerInsert acc.1 cfg.primary.tableName ⟨node, some cmap2, none⟩
    let db2 := cmap2.foldl
      (fun db e => if e.2 then eagerInsert db e.1 ⟨node, none, none⟩ else db) db1
    (db2, rng2, acc.2.2 + 1)

/-- `generateChildrenForBatch` restricted to one parent: folder count
draw, folder loop, file count draw, file loop; `none` models the
`rand.Intn` panic on a non-positive argument. -/
def generateChildrenForParent (R : RandModel) (uuids : Nat → String) (cfg : GenConfig)
    (db : TableMap) (rng : Rng) (upos : Nat) (parent : ParentNodeWithExistence)
    (targetLevel : Int) : Option (TableMap × Rng × Nat) :=
  match Rng.intn R rng (cfg.primary.maxChildFolders - cfg.primary.minChildFolders + 1) with
  | none => none
  | some (df, rng1) =>
    let numFolders : Int := cfg.primary.minChildFolders + df
    let accF := (List.range numFolders.toNat).foldl
      (eagerStep R uuids cfg parent targetLevel) (db, rng1, upos)
    match Rng.intn R accF.2.1 (cfg.primary.maxChildFiles - cfg.primary.minChildFiles + 1) with
    | none => none
    | some (dfi, rng2) =>
      let numFiles : Int := cfg.primary.minChildFiles + dfi
      some ((List.range numFiles.toNat).foldl
        (eagerFileStep R uuids cfg parent targetLevel) (accF.1, rng2, accF.2.2))

/-- `insertRootNode` (seeder): root into the primary table with an
all-true existence map and no `child_seed`, and into every secondary
table. -/
def seedInsertRootNode (db : TableMap) (secondaryNames : List String)
    (primaryName rootID : String) : TableMap :=
  let em : ExistenceMap := secondaryNames.map (fun t => (t, true))
  let node : Node := ⟨rootID, "", "root", "/", "folder", 0, 0, false⟩
  let db1 := eagerInsert db primaryName ⟨node, some em, none⟩
  secondaryNames.foldl (fun db t => eagerInsert db t ⟨node, none, none⟩) db1

/-- `createRootNodes` (`init_db.go`, the lazy pipeline's init): same
root row but carrying its derived `child_seed` in every table. -/
def createRootNodes (db : TableMap) (secondaryNames : List String)
    (primaryName rootID : String) (masterSeed : Int) : TableMap :=
  let em : ExistenceMap := secondaryNames.map (fun t => (t, true))
  let node : Node := ⟨rootID, "", "root", "/", "folder", 0, 0, false⟩
  let rootSeed := generateDeterministicSeed masterSeed rootID
  let db1 := eagerInsert db primaryName ⟨node, some em, some rootSeed⟩
  secondaryNames.foldl (fun db t => eagerInsert db t ⟨node, none, some rootSeed⟩) db1

/-- C5 run configuration: primary `"p"`, exactly one folder child, no
files, no secondary views, master seed 42. -/
def cfg5 : GenConfig := ⟨⟨"p", 42, 1, 1, 0, 0, 1, 1⟩, [], [], 42⟩

/-- C5 lazy-side initial state: a fresh database holding only the
`init_db` root (id `"r"`, seeded). -/
def stLazy5 : GenState :=
  ⟨createRootNodes (fun _ => []) [] "p" "r" 42, fun _ => none⟩

set_option maxRecDepth 1000000 in
/-- C5 counterexample: eager and lazy generation are *not* equivalent as
primary row sets.  On the same configuration and master seed, the bulk
seeder gives the root's child the path `"//folder_0"` (its `buildPath`
never special-cases the root) and a random uuid, while the lazy path
gives `"/folder_0"`; projected to paths, `R_eager = {"/", "//folder_0"}`
and `R_lazy = {"/", "/folder_0"}`, which differ. -/
theorem C5_counterexample_eager_lazy_rows_differ :
    ((generateChildrenForParent oracleZero (fun _ => "u0") cfg5
        (seedInsertRootNode (fun _ => []) [] "p" "r") ⟨42, 0⟩ 0 ⟨"r", "/", []⟩ 1).map
      (fun out => (getTable out.1 "p").map (fun r => r.node.path)))
      = some ["/", "//folder_0"] ∧
    ((listItems oracleZero cfg5 stLazy5 "r" false "p").map
      (fun res => (getTable res.2.db "p").map (fun r => r.node.path)))
      = some ["/", "/folder_0"] ∧
    ("//folder_0" : String) ∉ (["/", "/folder_0"] : List String) := by
  refine ⟨rfl, rfl, ?_⟩
  decide

/-- With no secondary views configured, the seeder's folder loop draws
nothing from the PRNG, draws one uuid per child, and appends exactly the
`folder_i` rows to the primary table. -/
lemma eagerFold_primary (R : RandModel) (uuids : Nat → String) (cfg : GenConfig)
    (parent : ParentNodeWithExistence) (targetLevel : Int)
    (hsec : cfg.secondaryOrder = []) (hnames : cfg.secondaryNames = []) (k : Nat) :
    ∀ (db : TableMap) (rng : Rng) (upos : Nat),
      ((List.range k).foldl (eagerStep R uuids cfg parent targetLevel) (db, rng, upos)).2.1
        = rng ∧
      ((List.range k).foldl (eagerStep R uuids cfg parent targetLevel) (db, rng, upos)).2.2
        = upos + k ∧
      getTable
          (((List.range k).foldl (eagerStep R uuids cfg parent targetLevel) (db, rng, upos)).1)
          cfg.primary.tableName
        = getTable db cfg.primary.tableName ++ (List.range k).map (fun i =>
            (⟨⟨uuids (upos + i), parent.id, "folder_" ++ toString i,
               seedBuildPath parent.path ("folder_" ++ toString i), "folder", 0, targetLevel,
               false⟩, some [], none⟩ : Row)) := by
  induction k with
  | zero =>
    intro db rng upos
    exact ⟨rfl, rfl, by simp⟩
  | succ k ih =>
    intro db rng upos
    obtain ⟨h1, h2, h3⟩ := ih db rng upos
    rw [List.range_succ, List.foldl_append, List.foldl_cons, List.foldl_nil]
    have hstep : ∀ acc : TableMap × Rng × Nat,
        eagerStep R uuids cfg parent targetLevel acc k
          = (eagerInsert acc.1 cfg.primary.tableName
              ⟨⟨uuids acc.2.2, parent.id, "folder_" ++ toString k,
                seedBuildPath parent.path ("folder_" ++ toString k), "folder", 0, targetLevel,
                false⟩, some [], none⟩, acc.2.1, acc.2.2 + 1) := by
      intro acc
      simp only [eagerStep, hsec, hnames, seedDetermineSecondaryExistence,
        checkParentDependencies, List.foldl_nil, List.map_nil]
    rw [hstep]
    refine ⟨h1, ?_, ?_⟩
    · simp only [h2]
      omega
    · unfold eagerInsert
      rw [getTable_setTable_self, h3, h2, List.map_append, List.map_cons,
        List.map_nil, List.append_assoc]

/-- C5 (amended): full row-set equality between eager and lazy
generation fails (ids are independent random uuids, root children's
paths differ — see the counterexample), but the structural residue
holds: for a non-root parent at the same path, with a fixed folder count
(`min = max`), no files and no secondary views, the rows the bulk seeder
appends for that parent and the children the lazy generator produces
agree exactly on parent id, name, path, type, size, level and checked —
everything except the id (and the seeder's absent `child_seed`). -/
theorem C5_eager_lazy_agree_up_to_ids (R : RandModel) (uuids : Nat → String)
    (cfg : GenConfig) (db : TableMap) (rng : Rng) (upos : Nat)
    (parentId parentPath : String) (pem : ExistenceMap) (level : Int) (cs : Int)
    (hsec : cfg.secondaryOrder = []) (hnames : cfg.secondaryNames = [])
    (hf : cfg.primary.minChildFolders = cfg.primary.maxChildFolders)
    (hfi0 : cfg.primary.minChildFiles = 0) (hfi1 : cfg.primary.maxChildFiles = 0)
    (hroot : parentPath ≠ "/") :
    generateChildrenForParent R uuids cfg db rng upos ⟨parentId, parentPath, pem⟩
        (level + 1) ≠ none ∧
    ((generateChildrenForParent R uuids cfg db rng upos ⟨parentId, parentPath, pem⟩
        (level + 1)).map
      (fun out => ((getTable out.1 cfg.primary.tableName).drop
          (getTable db cfg.primary.tableName).length).map
        (fun r => (r.node.parentId, r.node.name, r.node.path, r.node.typ,
          r.node.size, r.node.level, r.node.checked))))
    = ((genChildrenPure R cfg cs parentId parentPath level false).map
      (fun ch => ch.map (fun c => (c.parentId, c.name, c.path, c.typ,
          c.size, c.level, c.checked)))) := by
  have hn1 : cfg.primary.maxChildFolders - cfg.primary.minChildFolders + 1 = 1 := by omega
  have hn2 : cfg.primary.maxChildFiles - cfg.primary.minChildFiles + 1 = 1 := by omega
  have hn2b : cfg.primary.maxChildFiles - 0 + 1 = 1 := by omega
  have hintn : ∀ r : Rng, Rng.intn R r (1 : Int) = some (0, ⟨r.seed, r.pos + 1⟩) := by
    intro r
    unfold Rng.intn
    rw [if_neg (by omega)]
    simp
    omega
  constructor
  · simp only [generateChildrenForParent, hn1, hn2, hintn]
    intro h
    cases h
  · simp only [generateChildrenForParent, genChildrenPure, hn1, hn2, hintn,
      Option.map_some', Bool.false_eq_true, if_false, Nat.cast_zero, add_zero,
      hfi0, hn2b, Int.toNat_zero, List.range_zero, List.foldl_nil, List.map_nil,
      List.append_nil]
    obtain ⟨e1, e2, e3⟩ := eagerFold_primary R uuids cfg ⟨parentId, parentPath, pem⟩ (level + 1)
      hsec hnames cfg.primary.minChildFolders.toNat db ⟨rng.seed, rng.pos + 1⟩ upos
    rw [e3, List.drop_left]
    simp only [Option.some.injEq, List.map_map, List.append_nil]
    rw [List.map_eq_map_iff]
    intro i hi
    simp only [Function.comp_apply, folderChild]
    unfold buildPath
    rw [if_neg hroot]
    rfl

/-- Witness for the amended C5 theorem at a concrete instance: config
`cfg5` (one folder, no files, no secondaries), non-root parent `/x`. -/
theorem C5_eager_lazy_agree_up_to_ids_witness :
    ("/x" : String) ≠ "/" ∧
    (generateChildrenForParent oracleZero (fun n => "u" ++ toString n) cfg5
        (fun _ => []) ⟨42, 0⟩ 0 ⟨"r", "/x", []⟩ ((0 : Int) + 1) ≠ none ∧
    ((generateChildrenForParent oracleZero (fun n => "u" ++ toString n) cfg5
        (fun _ => []) ⟨42, 0⟩ 0 ⟨"r", "/x", []⟩ ((0 : Int) + 1)).map
      (fun out => ((getTable out.1 cfg5.primary.tableName).drop
          (getTable (fun _ => ([] : List Row)) cfg5.primary.tableName).length).map
        (fun r => (r.node.parentId, r.node.name, r.node.path, r.node.typ,
          r.node.size, r.node.level, r.node.checked))))
    = ((genChildrenPure oracleZero cfg5 77 "r" "/x" 0 false).map
      (fun ch => ch.map (fun c => (c.parentId, c.name, c.path, c.typ,
          c.size, c.level, c.checked))))) :=
  ⟨by decide,
   C5_eager_lazy_agree_up_to_ids oracleZero (fun n => "u" ++ toString n) cfg5
     (fun _ => []) ⟨42, 0⟩ 0 "r" "/x" [] 0 77 rfl rfl rfl rfl rfl (by decide)⟩

end GhostFS
